import Mathlib

/-!
Shallow embedding of the earthquake-analysis program: `earthquakes.py`
(data loading and the strongest-earthquake query) and
`earthquake_analysis.py` (extraction, per-year aggregation and summary
statistics).  Years are modelled as `ℤ`, magnitudes and coordinates as
`ℚ`; numpy arrays become lists; the file/network effects of `get_data`
become explicit parameters describing what the cache read, the API and
the cache write would yield.
-/

/-- One seismic event (a GeoJSON feature): `properties.time` in epoch
milliseconds, `properties.mag`, and `geometry.coordinates` given as
(longitude, latitude, altitude). -/
structure Feature where
  time : ℤ
  mag : ℚ
  coords : ℚ × ℚ × ℚ
deriving DecidableEq, Repr

/-- The record set: the parsed response body, reduced to the fields the
program reads (its `features` list). -/
structure Data where
  features : List Feature
deriving DecidableEq, Repr

/-- Outcome of attempting to read the local cache file
(`open` + `json.load` in the source): the file is present and parses,
the file is absent (`FileNotFoundError`), or the read fails for another
reason (unreadable file, parse error). -/
inductive ReadResult where
  | found (d : Data)
  | fileNotFound
  | unreadable
deriving DecidableEq, Repr

/-- Exceptions the modelled fragment of `get_data` can raise. -/
inductive PyError where
  | readFailure
  | writeFailure
deriving DecidableEq, Repr

/-- Result of a call that either returns a record set or raises. -/
inductive PyResult where
  | ok (d : Data)
  | raised (e : PyError)
deriving DecidableEq, Repr

/-- The remote branch of `get_data`: fetch from the API, then, when
`save_to_file` is set, write the cache file; the write is not wrapped in
any exception handler, so a failed write raises instead of returning the
in-memory data.  `api` is the parsed API response, `writeOk` whether the
cache write would succeed. -/
def fetch_from_api (save_to_file : Bool) (api : Data) (writeOk : Bool) : PyResult :=
  if save_to_file then
    if writeOk then PyResult.ok api else PyResult.raised PyError.writeFailure
  else PyResult.ok api

/-- Model of `get_data (use_local_file, save_to_file)`: when
`use_local_file` is set, try the cache file first; only
`FileNotFoundError` is caught (falling through to the API fetch) — any
other read failure propagates to the caller. -/
def get_data (use_local_file save_to_file : Bool) (readFile : ReadResult)
    (api : Data) (writeOk : Bool) : PyResult :=
  if use_local_file then
    match readFile with
    | ReadResult.found d => PyResult.ok d
    | ReadResult.fileNotFound => fetch_from_api save_to_file api writeOk
    | ReadResult.unreadable => PyResult.raised PyError.readFailure
  else fetch_from_api save_to_file api writeOk

/-- `count_earthquakes`: the length of the `features` list. -/
def count_earthquakes (data : Data) : ℕ :=
  data.features.length

/-- `get_magnitude`: the `properties.mag` field of a feature. -/
def get_magnitude (earthquake : Feature) : ℚ :=
  earthquake.mag

/-- `get_location`: `(coordinates[1], coordinates[0])`, i.e. (latitude,
longitude); the third coordinate (altitude) is discarded. -/
def get_location (earthquake : Feature) : ℚ × ℚ :=
  (earthquake.coords.2.1, earthquake.coords.1)

/-- Python `max` with a `key` function over a nonempty list `x :: xs`:
the running best is replaced only when a later element's key is strictly
greater, so on ties the first maximal element wins. -/
def pymax {α : Type} (key : α → ℚ) (x : α) (xs : List α) : α :=
  xs.foldl (fun best e => if key best < key e then e else best) x

/-- `get_maximum`: magnitude and location of the strongest earthquake,
`max(data["features"], key=get_magnitude)`; Python `max` raises on an
empty list, modelled as `none`. -/
def get_maximum (data : Data) : Option (ℚ × (ℚ × ℚ)) :=
  match data.features with
  | [] => none
  | x :: xs =>
      some (get_magnitude (pymax get_magnitude x xs), get_location (pymax get_magnitude x xs))

/-- `extract_earthquake_data`, parametrised by `yearOf`, the local-time
calendar-year conversion `fun s => datetime.fromtimestamp(s).year`; the
source divides the millisecond timestamp by 1000 (Python true division,
hence `ℚ`) before converting.  Returns the index-aligned year and
magnitude sequences. -/
def extract_earthquake_data (yearOf : ℚ → ℤ) (data : Data) : List ℤ × List ℚ :=
  (data.features.map (fun e => yearOf ((e.time : ℚ) / 1000)),
   data.features.map (fun e => e.mag))

/-- Model of `np.unique`: the ascending sort of the distinct values of
the input (first-occurrence deduplication followed by a sort). -/
def npUnique (l : List ℤ) : List ℤ :=
  l.dedup.insertionSort (· ≤ ·)

/-- The magnitudes selected by the boolean mask `years == year`
(`magnitudes[year_mask]` in the source); for the equal-length inputs the
program passes, the mask keeps exactly the magnitudes whose paired year
equals `y`, modelled by filtering the zipped sequences. -/
def maskSelect (years : List ℤ) (magnitudes : List ℚ) (y : ℤ) : List ℚ :=
  ((years.zip magnitudes).filter (fun p => p.1 == y)).map Prod.snd

/-- Model of `np.mean` on rationals: sum divided by length (`0` on the
empty list, which the aggregation loop never reaches). -/
def npMean (l : List ℚ) : ℚ :=
  l.sum / (l.length : ℚ)

/-- `analyze_earthquakes_by_year`: the sorted unique years, and for each
such year the count and the average of the magnitudes whose paired year
equals it. -/
def analyze_earthquakes_by_year (years : List ℤ) (magnitudes : List ℚ) :
    List ℤ × List ℕ × List ℚ :=
  let unique_years := npUnique years
  (unique_years,
   unique_years.map (fun y => (maskSelect years magnitudes y).length),
   unique_years.map (fun y => npMean (maskSelect years magnitudes y)))

/-- Scan underlying `np.argmax`: `i` is the index of the next list
element, `bi` and `bv` the best index and value so far; the best is
replaced only by a strictly greater value, so the first maximum wins. -/
def argmaxAux {α : Type} [LinearOrder α] : ℕ → ℕ → α → List α → ℕ
  | _, bi, _, [] => bi
  | i, bi, bv, x :: xs =>
      if bv < x then argmaxAux (i + 1) i x xs else argmaxAux (i + 1) bi bv xs

/-- Model of `np.argmax`: index of the first occurrence of the maximum
(`0` on the empty list). -/
def npArgmax {α : Type} [LinearOrder α] : List α → ℕ
  | [] => 0
  | x :: xs => argmaxAux 1 0 x xs

/-- Scan underlying `np.argmin`: the best is replaced only by a strictly
smaller value, so the first minimum wins. -/
def argminAux {α : Type} [LinearOrder α] : ℕ → ℕ → α → List α → ℕ
  | _, bi, _, [] => bi
  | i, bi, bv, x :: xs =>
      if x < bv then argminAux (i + 1) i x xs else argminAux (i + 1) bi bv xs

/-- Model of `np.argmin`: index of the first occurrence of the minimum
(`0` on the empty list). -/
def npArgmin {α : Type} [LinearOrder α] : List α → ℕ
  | [] => 0
  | x :: xs => argminAux 1 0 x xs

/-- The scalar selections printed by `print_summary_statistics`. -/
structure Summary where
  firstYear : ℤ
  lastYear : ℤ
  totalYears : ℕ
  totalEarthquakes : ℕ
  mostYear : ℤ
  fewestYear : ℤ
  highestAvgYear : ℤ
  lowestAvgYear : ℤ
deriving DecidableEq, Repr

/-- The pure content of `print_summary_statistics`: the statistics it
formats, notably `years[np.argmax(frequency)]`, `years[np.argmin(frequency)]`,
`years[np.argmax(avg_magnitude)]` and `years[np.argmin(avg_magnitude)]`. -/
def print_summary_statistics (years : List ℤ) (frequency : List ℕ)
    (avg_magnitude : List ℚ) : Summary :=
  { firstYear := years.getD 0 0
    lastYear := years.getD (years.length - 1) 0
    totalYears := years.length
    totalEarthquakes := frequency.sum
    mostYear := years.getD (npArgmax frequency) 0
    fewestYear := years.getD (npArgmin frequency) 0
    highestAvgYear := years.getD (npArgmax avg_magnitude) 0
    lowestAvgYear := years.getD (npArgmin avg_magnitude) 0 }

/-! ## Helper lemmas about the aggregation -/

theorem npUnique_perm_dedup (l : List ℤ) : (npUnique l).Perm l.dedup :=
  List.perm_insertionSort _ _

theorem npUnique_nodup (l : List ℤ) : (npUnique l).Nodup :=
  ((npUnique_perm_dedup l).nodup_iff).mpr (List.nodup_dedup l)

theorem npUnique_sorted_lt (l : List ℤ) : List.Sorted (· < ·) (npUnique l) :=
  (List.sorted_insertionSort _ _).lt_of_le (npUnique_nodup l)

theorem npUnique_length (l : List ℤ) : (npUnique l).length = l.dedup.length :=
  (npUnique_perm_dedup l).length_eq

theorem mem_npUnique {a : ℤ} {l : List ℤ} : a ∈ npUnique l ↔ a ∈ l :=
  ((npUnique_perm_dedup l).mem_iff).trans List.mem_dedup

/-- For equal-length inputs, the masked selection keeps exactly the
magnitudes at the positions whose year equals `y`. -/
theorem maskSelect_positions (y : ℤ) (ys : List ℤ) :
    ∀ ms : List ℚ, ys.length = ms.length →
      maskSelect ys ms y
        = ((List.range ys.length).filter (fun j => ys.getD j 0 == y)).map
            (fun j => ms.getD j 0) := by
  induction ys with
  | nil => intro ms h; simp [maskSelect]
  | cons a ys ih =>
      intro ms h
      cases ms with
      | nil => exact absurd h (by simp)
      | cons b ms =>
          have hlen : ys.length = ms.length := by simpa using h
          have ih2 := ih ms hlen
          simp only [maskSelect, List.zip_cons_cons, List.filter_cons, List.length_cons,
            List.range_succ_eq_map, List.getD_cons_zero, List.getD_cons_succ,
            List.filter_map, List.map_cons, List.map_map] at ih2 ⊢
          by_cases hay : a = y
          · simp [hay, Function.comp_def, ih2]
          · simp [hay, Function.comp_def, ih2]

/-- For equal-length inputs, the masked selection has one element per
occurrence of `y` among the years. -/
theorem maskSelect_length (y : ℤ) (ys : List ℤ) :
    ∀ ms : List ℚ, ys.length = ms.length →
      (maskSelect ys ms y).length = ys.count y := by
  induction ys with
  | nil => intro ms h; simp [maskSelect]
  | cons a ys ih =>
      intro ms h
      cases ms with
      | nil => exact absurd h (by simp)
      | cons b ms =>
          have hlen : ys.length = ms.length := by simpa using h
          have ih2 := ih ms hlen
          simp only [maskSelect, List.zip_cons_cons, List.filter_cons] at ih2 ⊢
          by_cases hay : a = y
          · simp [hay, ih2, List.count_cons]
          · simp [hay, ih2, List.count_cons, Ne.symm hay]

/-! ## Claims about the loader and about empty input -/

/-- C3, counterexample: on empty input `analyze_earthquakes_by_year`
does not fail at all — it silently returns three empty arrays,
contradicting the claim that empty input fails with an explicit
"no data" error. -/
theorem analyze_empty_silently_returns_empty :
    analyze_earthquakes_by_year [] [] = ([], [], []) := rfl

/-- C3, amended: on an empty `years` input, `analyze_earthquakes_by_year`
raises no error and returns three empty sequences (no NaN appears since
the per-year loop body never runs). -/
theorem analyze_empty_returns_empty (magnitudes : List ℚ) :
    analyze_earthquakes_by_year [] magnitudes = ([], [], []) := rfl

/-- C5, counterexample: with `use_local_file = true` and an unreadable
cache file, `get_data` surfaces the read failure to the caller instead
of falling back to the remote query (which would have returned the API
data): only `FileNotFoundError` is caught. -/
theorem get_data_unreadable_not_fallback :
    get_data true false ReadResult.unreadable (Data.mk [Feature.mk 0 5 (0, 0, 0)]) true
        = PyResult.raised PyError.readFailure ∧
    fetch_from_api false (Data.mk [Feature.mk 0 5 (0, 0, 0)]) true
        = PyResult.ok (Data.mk [Feature.mk 0 5 (0, 0, 0)]) ∧
    PyResult.raised PyError.readFailure
        ≠ PyResult.ok (Data.mk [Feature.mk 0 5 (0, 0, 0)]) :=
  ⟨rfl, rfl, fun h => PyResult.noConfusion h⟩

/-- C5, amended: `get_data` with `use_local_file = true` falls back to
the remote query only when the cache read fails with
`FileNotFoundError` (file absent); any other read failure (unreadable
file, parse error) propagates to the caller. -/
theorem get_data_fallback_only_on_fileNotFound (save_to_file writeOk : Bool) (api : Data) :
    get_data true save_to_file ReadResult.fileNotFound api writeOk
        = fetch_from_api save_to_file api writeOk ∧
    get_data true save_to_file ReadResult.unreadable api writeOk
        = PyResult.raised PyError.readFailure :=
  ⟨rfl, rfl⟩

/-- C6, counterexample: with the persist flag set and a failing cache
write, `get_data` raises the write failure and does not return the
in-memory API result, contradicting the claim that a failed persist is
non-fatal. -/
theorem get_data_save_failure_raises_cex :
    get_data false true ReadResult.fileNotFound (Data.mk [Feature.mk 0 5 (0, 0, 0)]) false
        = PyResult.raised PyError.writeFailure ∧
    PyResult.raised PyError.writeFailure
        ≠ PyResult.ok (Data.mk [Feature.mk 0 5 (0, 0, 0)]) :=
  ⟨rfl, fun h => PyResult.noConfusion h⟩

/-- C6, amended: when `get_data` fetches from the API with the persist
flag set and the cache write fails, the write error propagates (the
write is not wrapped in any handler) and the in-memory result is not
returned. -/
theorem get_data_save_failure_raises (readFile : ReadResult) (api : Data) :
    get_data false true readFile api false = PyResult.raised PyError.writeFailure ∧
    get_data true true ReadResult.fileNotFound api false
        = PyResult.raised PyError.writeFailure :=
  ⟨rfl, rfl⟩

/-- C8: `analyze_earthquakes_by_year` is a pure function of its two
inputs — equal inputs give identical outputs, with no hidden state. -/
theorem analyze_pure (years years2 : List ℤ) (magnitudes magnitudes2 : List ℚ)
    (hy : years = years2) (hm : magnitudes = magnitudes2) :
    analyze_earthquakes_by_year years magnitudes
      = analyze_earthquakes_by_year years2 magnitudes2 := by
  rw [hy, hm]

/-- C8, witness: the determinism theorem applied to the concrete input
of the spec scenario. -/
theorem analyze_pure_witness :
    ([2000, 2000, 2001] : List ℤ) = [2000, 2000, 2001] ∧
    ([2, 4, 3] : List ℚ) = [2, 4, 3] ∧
    analyze_earthquakes_by_year [2000, 2000, 2001] [2, 4, 3]
      = analyze_earthquakes_by_year [2000, 2000, 2001] [2, 4, 3] :=
  ⟨rfl, rfl, analyze_pure _ _ _ _ rfl rfl⟩

/-! ## Claims about the aggregation -/

/-- C2: for nonempty input, the aggregation output has length equal to
the number of distinct years of the input, and its year sequence is
sorted strictly ascending. -/
theorem analyze_length_sorted (years : List ℤ) (magnitudes : List ℚ)
    (hne : years ≠ []) :
    (analyze_earthquakes_by_year years magnitudes).1.length = years.dedup.length ∧
    List.Sorted (· < ·) (analyze_earthquakes_by_year years magnitudes).1 :=
  ⟨npUnique_length years, npUnique_sorted_lt years⟩

/-- C2, witness: the length/sortedness theorem applied to the concrete
spec scenario. -/
theorem analyze_length_sorted_witness :
    ([2000, 2000, 2001] : List ℤ) ≠ [] ∧
    ((analyze_earthquakes_by_year [2000, 2000, 2001] [2, 4, 3]).1.length
        = ([2000, 2000, 2001] : List ℤ).dedup.length ∧
      List.Sorted (· < ·) (analyze_earthquakes_by_year [2000, 2000, 2001] [2, 4, 3]).1) :=
  ⟨by decide, analyze_length_sorted [2000, 2000, 2001] [2, 4, 3] (by decide)⟩

/-- C9: for equal-length inputs, the per-year frequencies sum to the
length of the input, and the three output sequences have equal
lengths — every record is counted in exactly one year group. -/
theorem analyze_conservation (years : List ℤ) (magnitudes : List ℚ)
    (hlen : years.length = magnitudes.length) :
    (analyze_earthquakes_by_year years magnitudes).2.1.sum = years.length ∧
    (analyze_earthquakes_by_year years magnitudes).1.length
        = (analyze_earthquakes_by_year years magnitudes).2.1.length ∧
    (analyze_earthquakes_by_year years magnitudes).2.1.length
        = (analyze_earthquakes_by_year years magnitudes).2.2.length := by
  refine ⟨?_, by simp [analyze_earthquakes_by_year], by simp [analyze_earthquakes_by_year]⟩
  show ((npUnique years).map (fun y => (maskSelect years magnitudes y).length)).sum
      = years.length
  have hco : ∀ y : ℤ, (maskSelect years magnitudes y).length = years.count y :=
    fun y => maskSelect_length y years magnitudes hlen
  calc ((npUnique years).map (fun y => (maskSelect years magnitudes y).length)).sum
      = ((npUnique years).map (fun y => years.count y)).sum := by
        simp only [hco]
    _ = (years.dedup.map (fun y => years.count y)).sum :=
        ((npUnique_perm_dedup years).map _).sum_eq
    _ = years.length := List.sum_map_count_dedup_eq_length years

/-- C9, witness: the conservation theorem applied to the concrete spec
scenario. -/
theorem analyze_conservation_witness :
    (analyze_earthquakes_by_year [2000, 2000, 2001] [2, 4, 3]).2.1.sum
        = ([2000, 2000, 2001] : List ℤ).length ∧
    (analyze_earthquakes_by_year [2000, 2000, 2001] [2, 4, 3]).1.length
        = (analyze_earthquakes_by_year [2000, 2000, 2001] [2, 4, 3]).2.1.length ∧
    (analyze_earthquakes_by_year [2000, 2000, 2001] [2, 4, 3]).2.1.length
        = (analyze_earthquakes_by_year [2000, 2000, 2001] [2, 4, 3]).2.2.length :=
  analyze_conservation [2000, 2000, 2001] [2, 4, 3] rfl

/-- C1: for equal-length nonempty inputs, the `i`-th aggregate's count
equals the number of input positions whose year equals the `i`-th
unique year (`pos` lists exactly those positions), and the `i`-th
average magnitude is the arithmetic mean — sum divided by count — of
exactly those positions' magnitudes. -/
theorem analyze_count_avg (years : List ℤ) (magnitudes : List ℚ)
    (hlen : years.length = magnitudes.length) (hne : years ≠ [])
    (i : ℕ) (hi : i < (analyze_earthquakes_by_year years magnitudes).1.length)
    (y : ℤ) (hy : y = (analyze_earthquakes_by_year years magnitudes).1.getD i 0)
    (pos : List ℕ)
    (hpos : pos = (List.range years.length).filter (fun j => years.getD j 0 == y)) :
    0 < pos.length ∧
    (analyze_earthquakes_by_year years magnitudes).2.1.getD i 0 = pos.length ∧
    (analyze_earthquakes_by_year years magnitudes).2.2.getD i 0
      = (pos.map (fun j => magnitudes.getD j 0)).sum / (pos.length : ℚ) := by
  have ha1 : (analyze_earthquakes_by_year years magnitudes).1 = npUnique years := rfl
  have ha2 : (analyze_earthquakes_by_year years magnitudes).2.1
      = (npUnique years).map (fun z => (maskSelect years magnitudes z).length) := rfl
  have ha3 : (analyze_earthquakes_by_year years magnitudes).2.2
      = (npUnique years).map (fun z => npMean (maskSelect years magnitudes z)) := rfl
  rw [ha1] at hy hi
  have hi1 : i < (npUnique years).length := hi
  have hyy : (npUnique years).getD i 0 = y := hy.symm
  have hyu : y ∈ npUnique years := by
    rw [← hyy, List.getD_eq_getElem _ _ hi1]
    exact List.getElem_mem hi1
  have hmem : y ∈ years := mem_npUnique.mp hyu
  have hmask : maskSelect years magnitudes y = pos.map (fun j => magnitudes.getD j 0) := by
    rw [hpos, maskSelect_positions y years magnitudes hlen]
  have hposlen : 0 < pos.length := by
    obtain ⟨j, hj, hjy⟩ := List.mem_iff_getElem.mp hmem
    have hjpos : j ∈ pos := by
      rw [hpos]
      refine List.mem_filter.mpr ⟨List.mem_range.mpr hj, ?_⟩
      rw [List.getD_eq_getElem _ _ hj, hjy]
      exact beq_self_eq_true y
    exact List.length_pos_of_mem hjpos
  have hiel : (npUnique years).get ⟨i, hi1⟩ = y := by
    rw [← hyy, List.getD_eq_getElem _ _ hi1]
    rfl
  refine ⟨hposlen, ?_, ?_⟩
  · have hi2 : i < ((npUnique years).map
        (fun z => (maskSelect years magnitudes z).length)).length := by
      simpa using hi1
    rw [ha2, List.getD_eq_getElem _ _ hi2, List.getElem_map]
    show (maskSelect years magnitudes ((npUnique years).get ⟨i, hi1⟩)).length = pos.length
    rw [hiel, hmask, List.length_map]
  · have hi2 : i < ((npUnique years).map
        (fun z => npMean (maskSelect years magnitudes z))).length := by
      simpa using hi1
    rw [ha3, List.getD_eq_getElem _ _ hi2, List.getElem_map]
    show npMean (maskSelect years magnitudes ((npUnique years).get ⟨i, hi1⟩))
        = (pos.map (fun j => magnitudes.getD j 0)).sum / (pos.length : ℚ)
    rw [hiel, npMean, hmask, List.length_map]

/-- C1, witness: the count/mean theorem applied to the concrete spec
scenario at index 0 (year 2000, occurring at positions 0 and 1). -/
theorem analyze_count_avg_witness :
    0 < ([0, 1] : List ℕ).length ∧
    (analyze_earthquakes_by_year [2000, 2000, 2001] [2, 4, 3]).2.1.getD 0 0
        = ([0, 1] : List ℕ).length ∧
    (analyze_earthquakes_by_year [2000, 2000, 2001] [2, 4, 3]).2.2.getD 0 0
        = (([0, 1] : List ℕ).map (fun j => ([2, 4, 3] : List ℚ).getD j 0)).sum
          / (([0, 1] : List ℕ).length : ℚ) :=
  analyze_count_avg [2000, 2000, 2001] [2, 4, 3] rfl (by decide) 0 (by decide)
    2000 (by decide) [0, 1] (by decide)

/-! ## Helper lemmas about argmax and argmin -/

theorem argmaxAux_spec {α : Type} [LinearOrder α] (d : α) :
    ∀ (xs pre : List α) (bi : ℕ) (bv : α),
      bi < pre.length → pre.getD bi d = bv →
      (∀ j, j < pre.length → pre.getD j d ≤ bv) →
      (∀ j, j < bi → pre.getD j d < bv) →
      argmaxAux pre.length bi bv xs < (pre ++ xs).length ∧
      (∀ j, j < (pre ++ xs).length →
        (pre ++ xs).getD j d ≤ (pre ++ xs).getD (argmaxAux pre.length bi bv xs) d) ∧
      (∀ j, j < argmaxAux pre.length bi bv xs →
        (pre ++ xs).getD j d < (pre ++ xs).getD (argmaxAux pre.length bi bv xs) d) := by
  intro xs
  induction xs with
  | nil =>
      intro pre bi bv hbi hbv hle hlt
      simp only [argmaxAux, List.append_nil]
      refine ⟨hbi, ?_, ?_⟩
      · intro j hj
        rw [hbv]
        exact hle j hj
      · intro j hj
        rw [hbv]
        exact hlt j hj
  | cons x xs ih =>
      intro pre bi bv hbi hbv hle hlt
      have hps : (pre ++ [x]).length = pre.length + 1 := by simp
      have hcat : (pre ++ [x]) ++ xs = pre ++ (x :: xs) := by
        rw [List.append_assoc, List.singleton_append]
      by_cases hx : bv < x
      · have h1 : pre.length < (pre ++ [x]).length := by simp
        have h2 : (pre ++ [x]).getD pre.length d = x := by
          rw [List.getD_append_right _ _ _ _ le_rfl]
          simp
        have h3 : ∀ j, j < (pre ++ [x]).length → (pre ++ [x]).getD j d ≤ x := by
          intro j hj
          rcases Nat.lt_or_ge j pre.length with hjp | hjp
          · rw [List.getD_append _ _ _ _ hjp]
            exact le_of_lt (lt_of_le_of_lt (hle j hjp) hx)
          · have : j = pre.length := by
              rw [hps] at hj
              omega
            rw [this, h2]
        have h4 : ∀ j, j < pre.length → (pre ++ [x]).getD j d < x := by
          intro j hj
          rw [List.getD_append _ _ _ _ hj]
          exact lt_of_le_of_lt (hle j hj) hx
        have hres := ih (pre ++ [x]) pre.length x h1 h2 h3 (by
          intro j hj
          exact h4 j hj)
        rw [hps, hcat] at hres
        simpa only [argmaxAux, if_pos hx] using hres
      · have h1 : bi < (pre ++ [x]).length := by
          rw [hps]
          omega
        have h2 : (pre ++ [x]).getD bi d = bv := by
          rw [List.getD_append _ _ _ _ hbi]
          exact hbv
        have h3 : ∀ j, j < (pre ++ [x]).length → (pre ++ [x]).getD j d ≤ bv := by
          intro j hj
          rcases Nat.lt_or_ge j pre.length with hjp | hjp
          · rw [List.getD_append _ _ _ _ hjp]
            exact hle j hjp
          · have : j = pre.length := by
              rw [hps] at hj
              omega
            rw [this]
            rw [List.getD_append_right _ _ _ _ le_rfl]
            simp only [Nat.sub_self, List.getD_cons_zero]
            exact le_of_not_lt hx
        have h4 : ∀ j, j < bi → (pre ++ [x]).getD j d < bv := by
          intro j hj
          rw [List.getD_append _ _ _ _ (lt_trans hj hbi)]
          exact hlt j hj
        have hres := ih (pre ++ [x]) bi bv h1 h2 h3 h4
        rw [hps, hcat] at hres
        simpa only [argmaxAux, if_neg hx] using hres

/-- `np.argmax` returns an in-range index of a maximal value that every
strictly earlier index strictly misses: the first maximum. -/
theorem npArgmax_spec {α : Type} [LinearOrder α] (d : α) (l : List α) (h : l ≠ []) :
    npArgmax l < l.length ∧
    (∀ j, j < l.length → l.getD j d ≤ l.getD (npArgmax l) d) ∧
    (∀ j, j < npArgmax l → l.getD j d < l.getD (npArgmax l) d) := by
  cases l with
  | nil => exact absurd rfl h
  | cons x xs =>
      have hres := argmaxAux_spec d xs [x] 0 x (by simp) (by simp)
        (by
          intro j hj
          simp only [List.length_cons, List.length_nil] at hj
          have : j = 0 := by omega
          simp [this])
        (by
          intro j hj
          omega)
      simpa only [List.length_cons, List.singleton_append, npArgmax] using hres

theorem argminAux_spec {α : Type} [LinearOrder α] (d : α) :
    ∀ (xs pre : List α) (bi : ℕ) (bv : α),
      bi < pre.length → pre.getD bi d = bv →
      (∀ j, j < pre.length → bv ≤ pre.getD j d) →
      (∀ j, j < bi → bv < pre.getD j d) →
      argminAux pre.length bi bv xs < (pre ++ xs).length ∧
      (∀ j, j < (pre ++ xs).length →
        (pre ++ xs).getD (argminAux pre.length bi bv xs) d ≤ (pre ++ xs).getD j d) ∧
      (∀ j, j < argminAux pre.length bi bv xs →
        (pre ++ xs).getD (argminAux pre.length bi bv xs) d < (pre ++ xs).getD j d) := by
  intro xs
  induction xs with
  | nil =>
      intro pre bi bv hbi hbv hle hlt
      simp only [argminAux, List.append_nil]
      refine ⟨hbi, ?_, ?_⟩
      · intro j hj
        rw [hbv]
        exact hle j hj
      · intro j hj
        rw [hbv]
        exact hlt j hj
  | cons x xs ih =>
      intro pre bi bv hbi hbv hle hlt
      have hps : (pre ++ [x]).length = pre.length + 1 := by simp
      have hcat : (pre ++ [x]) ++ xs = pre ++ (x :: xs) := by
        rw [List.append_assoc, List.singleton_append]
      by_cases hx : x < bv
      · have h1 : pre.length < (pre ++ [x]).length := by simp
        have h2 : (pre ++ [x]).getD pre.length d = x := by
          rw [List.getD_append_right _ _ _ _ le_rfl]
          simp
        have h3 : ∀ j, j < (pre ++ [x]).length → x ≤ (pre ++ [x]).getD j d := by
          intro j hj
          rcases Nat.lt_or_ge j pre.length with hjp | hjp
          · rw [List.getD_append _ _ _ _ hjp]
            exact le_of_lt (lt_of_lt_of_le hx (hle j hjp))
          · have : j = pre.length := by
              rw [hps] at hj
              omega
            rw [this, h2]
        have h4 : ∀ j, j < pre.length → x < (pre ++ [x]).getD j d := by
          intro j hj
          rw [List.getD_append _ _ _ _ hj]
          exact lt_of_lt_of_le hx (hle j hj)
        have hres := ih (pre ++ [x]) pre.length x h1 h2 h3 (by
          intro j hj
          exact h4 j hj)
        rw [hps, hcat] at hres
        simpa only [argminAux, if_pos hx] using hres
      · have h1 : bi < (pre ++ [x]).length := by
          rw [hps]
          omega
        have h2 : (pre ++ [x]).getD bi d = bv := by
          rw [List.getD_append _ _ _ _ hbi]
          exact hbv
        have h3 : ∀ j, j < (pre ++ [x]).length → bv ≤ (pre ++ [x]).getD j d := by
          intro j hj
          rcases Nat.lt_or_ge j pre.length with hjp | hjp
          · rw [List.getD_append _ _ _ _ hjp]
            exact hle j hjp
          · have : j = pre.length := by
              rw [hps] at hj
              omega
            rw [this]
            rw [List.getD_append_right _ _ _ _ le_rfl]
            simp only [Nat.sub_self, List.getD_cons_zero]
            exact le_of_not_lt hx
        have h4 : ∀ j, j < bi → bv < (pre ++ [x]).getD j d := by
          intro j hj
          rw [List.getD_append _ _ _ _ (lt_trans hj hbi)]
          exact hlt j hj
        have hres := ih (pre ++ [x]) bi bv h1 h2 h3 h4
        rw [hps, hcat] at hres
        simpa only [argminAux, if_neg hx] using hres

/-- `np.argmin` returns an in-range index of a minimal value that every
strictly earlier index strictly misses: the first minimum. -/
theorem npArgmin_spec {α : Type} [LinearOrder α] (d : α) (l : List α) (h : l ≠ []) :
    npArgmin l < l.length ∧
    (∀ j, j < l.length → l.getD (npArgmin l) d ≤ l.getD j d) ∧
    (∀ j, j < npArgmin l → l.getD (npArgmin l) d < l.getD j d) := by
  cases l with
  | nil => exact absurd rfl h
  | cons x xs =>
      have hres := argminAux_spec d xs [x] 0 x (by simp) (by simp)
        (by
          intro j hj
          simp only [List.length_cons, List.length_nil] at hj
          have : j = 0 := by omega
          simp [this])
        (by
          intro j hj
          omega)
      simpa only [List.length_cons, List.singleton_append, npArgmin] using hres

theorem sorted_getD_le (years : List ℤ) (hs : List.Sorted (· < ·) years)
    (i j : ℕ) (hij : i ≤ j) (hj : j < years.length) :
    years.getD i 0 ≤ years.getD j 0 := by
  have hi : i < years.length := lt_of_le_of_lt hij hj
  rcases eq_or_lt_of_le hij with rfl | hlt
  · exact le_refl _
  · rw [List.getD_eq_getElem _ _ hi, List.getD_eq_getElem _ _ hj]
    exact le_of_lt (List.Sorted.rel_get_of_lt hs hlt)

/-- When every index before `k` strictly misses the value at `k`, the
year at `k` is the earliest year whose value equals the value at `k`,
provided the years are strictly ascending. -/
theorem selected_earliest {α : Type} [LinearOrder α] (years : List ℤ)
    (vals : List α) (d : α) (k : ℕ)
    (hs : List.Sorted (· < ·) years)
    (hstrict : ∀ j, j < k → vals.getD j d ≠ vals.getD k d) :
    ∀ j, j < years.length → vals.getD j d = vals.getD k d →
      years.getD k 0 ≤ years.getD j 0 := by
  intro j hj heq
  have hkj : k ≤ j := by
    by_contra hlt
    push_neg at hlt
    exact hstrict j hlt heq
  exact sorted_getD_le years hs k j hkj hj

/-- First-occurrence argmax, transported to the years sequence. -/
theorem argmax_first_year {α : Type} [LinearOrder α] (years : List ℤ)
    (vals : List α) (d : α)
    (hs : List.Sorted (· < ·) years)
    (hlv : vals.length = years.length) (hne : years ≠ []) :
    npArgmax vals < years.length ∧
    (∀ j, j < years.length → vals.getD j d ≤ vals.getD (npArgmax vals) d) ∧
    (∀ j, j < years.length → vals.getD j d = vals.getD (npArgmax vals) d →
      years.getD (npArgmax vals) 0 ≤ years.getD j 0) := by
  have hvne : vals ≠ [] := by
    intro h0
    rw [h0] at hlv
    exact hne (List.eq_nil_of_length_eq_zero hlv.symm)
  obtain ⟨hk, hmax, hstrict⟩ := npArgmax_spec d vals hvne
  rw [hlv] at hk
  refine ⟨hk, ?_, ?_⟩
  · intro j hj
    exact hmax j (by rw [hlv]; exact hj)
  · exact selected_earliest years vals d (npArgmax vals) hs
      (fun j hjk => ne_of_lt (hstrict j hjk))

/-- First-occurrence argmin, transported to the years sequence. -/
theorem argmin_first_year {α : Type} [LinearOrder α] (years : List ℤ)
    (vals : List α) (d : α)
    (hs : List.Sorted (· < ·) years)
    (hlv : vals.length = years.length) (hne : years ≠ []) :
    npArgmin vals < years.length ∧
    (∀ j, j < years.length → vals.getD (npArgmin vals) d ≤ vals.getD j d) ∧
    (∀ j, j < years.length → vals.getD j d = vals.getD (npArgmin vals) d →
      years.getD (npArgmin vals) 0 ≤ years.getD j 0) := by
  have hvne : vals ≠ [] := by
    intro h0
    rw [h0] at hlv
    exact hne (List.eq_nil_of_length_eq_zero hlv.symm)
  obtain ⟨hk, hmin, hstrict⟩ := npArgmin_spec d vals hvne
  rw [hlv] at hk
  refine ⟨hk, ?_, ?_⟩
  · intro j hj
    exact hmin j (by rw [hlv]; exact hj)
  · exact selected_earliest years vals d (npArgmin vals) hs
      (fun j hjk => (ne_of_lt (hstrict j hjk)).symm)

/-- C4: with strictly ascending years and matching lengths, each of the
four summary selections — year with most earthquakes, with fewest
earthquakes, with highest average magnitude, with lowest average
magnitude — picks a year attaining the extremum, and on ties the
earliest such year in ascending-year order. -/
theorem summary_tiebreak (years : List ℤ) (frequency : List ℕ)
    (avg_magnitude : List ℚ)
    (hs : List.Sorted (· < ·) years)
    (hlf : frequency.length = years.length)
    (hla : avg_magnitude.length = years.length)
    (hne : years ≠ []) :
    ((print_summary_statistics years frequency avg_magnitude).mostYear
        = years.getD (npArgmax frequency) 0 ∧
      npArgmax frequency < years.length ∧
      (∀ j, j < years.length →
        frequency.getD j 0 ≤ frequency.getD (npArgmax frequency) 0) ∧
      (∀ j, j < years.length →
        frequency.getD j 0 = frequency.getD (npArgmax frequency) 0 →
        (print_summary_statistics years frequency avg_magnitude).mostYear
          ≤ years.getD j 0)) ∧
    ((print_summary_statistics years frequency avg_magnitude).fewestYear
        = years.getD (npArgmin frequency) 0 ∧
      npArgmin frequency < years.length ∧
      (∀ j, j < years.length →
        frequency.getD (npArgmin frequency) 0 ≤ frequency.getD j 0) ∧
      (∀ j, j < years.length →
        frequency.getD j 0 = frequency.getD (npArgmin frequency) 0 →
        (print_summary_statistics years frequency avg_magnitude).fewestYear
          ≤ years.getD j 0)) ∧
    ((print_summary_statistics years frequency avg_magnitude).highestAvgYear
        = years.getD (npArgmax avg_magnitude) 0 ∧
      npArgmax avg_magnitude < years.length ∧
      (∀ j, j < years.length →
        avg_magnitude.getD j 0 ≤ avg_magnitude.getD (npArgmax avg_magnitude) 0) ∧
      (∀ j, j < years.length →
        avg_magnitude.getD j 0 = avg_magnitude.getD (npArgmax avg_magnitude) 0 →
        (print_summary_statistics years frequency avg_magnitude).highestAvgYear
          ≤ years.getD j 0)) ∧
    ((print_summary_statistics years frequency avg_magnitude).lowestAvgYear
        = years.getD (npArgmin avg_magnitude) 0 ∧
      npArgmin avg_magnitude < years.length ∧
      (∀ j, j < years.length →
        avg_magnitude.getD (npArgmin avg_magnitude) 0 ≤ avg_magnitude.getD j 0) ∧
      (∀ j, j < years.length →
        avg_magnitude.getD j 0 = avg_magnitude.getD (npArgmin avg_magnitude) 0 →
        (print_summary_statistics years frequency avg_magnitude).lowestAvgYear
          ≤ years.getD j 0)) := by
  obtain ⟨ha1, ha2, ha3⟩ := argmax_first_year years frequency 0 hs hlf hne
  obtain ⟨hb1, hb2, hb3⟩ := argmin_first_year years frequency 0 hs hlf hne
  obtain ⟨hc1, hc2, hc3⟩ := argmax_first_year years avg_magnitude 0 hs hla hne
  obtain ⟨hd1, hd2, hd3⟩ := argmin_first_year years avg_magnitude 0 hs hla hne
  exact ⟨⟨rfl, ha1, ha2, ha3⟩, ⟨rfl, hb1, hb2, hb3⟩,
    ⟨rfl, hc1, hc2, hc3⟩, ⟨rfl, hd1, hd2, hd3⟩⟩

/-- C4, witness: the tie-break theorem applied to two years sharing both
the maximum count and the maximum average magnitude. -/
theorem summary_tiebreak_witness :
    ((print_summary_statistics [2000, 2001] [2, 2] [3, 3]).mostYear
        = ([2000, 2001] : List ℤ).getD (npArgmax ([2, 2] : List ℕ)) 0 ∧
      npArgmax ([2, 2] : List ℕ) < ([2000, 2001] : List ℤ).length ∧
      (∀ j, j < ([2000, 2001] : List ℤ).length →
        ([2, 2] : List ℕ).getD j 0
          ≤ ([2, 2] : List ℕ).getD (npArgmax ([2, 2] : List ℕ)) 0) ∧
      (∀ j, j < ([2000, 2001] : List ℤ).length →
        ([2, 2] : List ℕ).getD j 0
          = ([2, 2] : List ℕ).getD (npArgmax ([2, 2] : List ℕ)) 0 →
        (print_summary_statistics [2000, 2001] [2, 2] [3, 3]).mostYear
          ≤ ([2000, 2001] : List ℤ).getD j 0)) ∧
    ((print_summary_statistics [2000, 2001] [2, 2] [3, 3]).fewestYear
        = ([2000, 2001] : List ℤ).getD (npArgmin ([2, 2] : List ℕ)) 0 ∧
      npArgmin ([2, 2] : List ℕ) < ([2000, 2001] : List ℤ).length ∧
      (∀ j, j < ([2000, 2001] : List ℤ).length →
        ([2, 2] : List ℕ).getD (npArgmin ([2, 2] : List ℕ)) 0
          ≤ ([2, 2] : List ℕ).getD j 0) ∧
      (∀ j, j < ([2000, 2001] : List ℤ).length →
        ([2, 2] : List ℕ).getD j 0
          = ([2, 2] : List ℕ).getD (npArgmin ([2, 2] : List ℕ)) 0 →
        (print_summary_statistics [2000, 2001] [2, 2] [3, 3]).fewestYear
          ≤ ([2000, 2001] : List ℤ).getD j 0)) ∧
    ((print_summary_statistics [2000, 2001] [2, 2] [3, 3]).highestAvgYear
        = ([2000, 2001] : List ℤ).getD (npArgmax ([3, 3] : List ℚ)) 0 ∧
      npArgmax ([3, 3] : List ℚ) < ([2000, 2001] : List ℤ).length ∧
      (∀ j, j < ([2000, 2001] : List ℤ).length →
        ([3, 3] : List ℚ).getD j 0
          ≤ ([3, 3] : List ℚ).getD (npArgmax ([3, 3] : List ℚ)) 0) ∧
      (∀ j, j < ([2000, 2001] : List ℤ).length →
        ([3, 3] : List ℚ).getD j 0
          = ([3, 3] : List ℚ).getD (npArgmax ([3, 3] : List ℚ)) 0 →
        (print_summary_statistics [2000, 2001] [2, 2] [3, 3]).highestAvgYear
          ≤ ([2000, 2001] : List ℤ).getD j 0)) ∧
    ((print_summary_statistics [2000, 2001] [2, 2] [3, 3]).lowestAvgYear
        = ([2000, 2001] : List ℤ).getD (npArgmin ([3, 3] : List ℚ)) 0 ∧
      npArgmin ([3, 3] : List ℚ) < ([2000, 2001] : List ℤ).length ∧
      (∀ j, j < ([2000, 2001] : List ℤ).length →
        ([3, 3] : List ℚ).getD (npArgmin ([3, 3] : List ℚ)) 0
          ≤ ([3, 3] : List ℚ).getD j 0) ∧
      (∀ j, j < ([2000, 2001] : List ℤ).length →
        ([3, 3] : List ℚ).getD j 0
          = ([3, 3] : List ℚ).getD (npArgmin ([3, 3] : List ℚ)) 0 →
        (print_summary_statistics [2000, 2001] [2, 2] [3, 3]).lowestAvgYear
          ≤ ([2000, 2001] : List ℤ).getD j 0)) :=
  summary_tiebreak [2000, 2001] [2, 2] [3, 3] (by decide) rfl rfl (by decide)

/-! ## Claims about extraction and the strongest earthquake -/

/-- C7: `extract_earthquake_data` returns two sequences with the length
of the feature list, index-aligned to the input order: position `i`
holds the calendar year obtained by applying the local-time conversion
to the `i`-th record's timestamp divided by 1000, and the `i`-th
record's magnitude. -/
theorem extract_aligned (yearOf : ℚ → ℤ) (data : Data)
    (i : ℕ) (hi : i < data.features.length) :
    (extract_earthquake_data yearOf data).1.length = data.features.length ∧
    (extract_earthquake_data yearOf data).2.length = data.features.length ∧
    (extract_earthquake_data yearOf data).1.getD i 0
      = yearOf (((data.features.getD i (Feature.mk 0 0 (0, 0, 0))).time : ℚ) / 1000) ∧
    (extract_earthquake_data yearOf data).2.getD i 0
      = (data.features.getD i (Feature.mk 0 0 (0, 0, 0))).mag := by
  refine ⟨by simp [extract_earthquake_data], by simp [extract_earthquake_data], ?_, ?_⟩
  · have hi2 : i < (data.features.map (fun e => yearOf ((e.time : ℚ) / 1000))).length := by
      simpa using hi
    show (data.features.map (fun e => yearOf ((e.time : ℚ) / 1000))).getD i 0 = _
    rw [List.getD_eq_getElem _ _ hi2, List.getElem_map, List.getD_eq_getElem _ _ hi]
  · have hi2 : i < (data.features.map (fun e => e.mag)).length := by
      simpa using hi
    show (data.features.map (fun e => e.mag)).getD i 0 = _
    rw [List.getD_eq_getElem _ _ hi2, List.getElem_map, List.getD_eq_getElem _ _ hi]

/-- C7, witness: the alignment theorem applied to a one-record set. -/
theorem extract_aligned_witness :
    (extract_earthquake_data (fun _ : ℚ => (1970 : ℤ))
        (Data.mk [Feature.mk 86400000 5 (1, 2, 3)])).1.length
      = (Data.mk [Feature.mk 86400000 5 (1, 2, 3)]).features.length ∧
    (extract_earthquake_data (fun _ : ℚ => (1970 : ℤ))
        (Data.mk [Feature.mk 86400000 5 (1, 2, 3)])).2.length
      = (Data.mk [Feature.mk 86400000 5 (1, 2, 3)]).features.length ∧
    (extract_earthquake_data (fun _ : ℚ => (1970 : ℤ))
        (Data.mk [Feature.mk 86400000 5 (1, 2, 3)])).1.getD 0 0
      = (fun _ : ℚ => (1970 : ℤ))
          ((((Data.mk [Feature.mk 86400000 5 (1, 2, 3)]).features.getD 0
              (Feature.mk 0 0 (0, 0, 0))).time : ℚ) / 1000) ∧
    (extract_earthquake_data (fun _ : ℚ => (1970 : ℤ))
        (Data.mk [Feature.mk 86400000 5 (1, 2, 3)])).2.getD 0 0
      = ((Data.mk [Feature.mk 86400000 5 (1, 2, 3)]).features.getD 0
          (Feature.mk 0 0 (0, 0, 0))).mag :=
  extract_aligned (fun _ : ℚ => (1970 : ℤ))
    (Data.mk [Feature.mk 86400000 5 (1, 2, 3)]) 0 (by decide)

/-- The result of Python `max` over a nonempty list is an element of the
list. -/
theorem pymax_mem {α : Type} (key : α → ℚ) :
    ∀ (xs : List α) (x : α), pymax key x xs ∈ x :: xs := by
  intro xs
  induction xs with
  | nil => intro x; simp [pymax]
  | cons a xs ih =>
      intro x
      show (a :: xs).foldl (fun best e => if key best < key e then e else best) x
          ∈ x :: a :: xs
      rw [List.foldl_cons]
      by_cases h : key x < key a
      · rw [if_pos h]
        exact List.mem_cons_of_mem x (ih a)
      · rw [if_neg h]
        show pymax key x xs ∈ x :: a :: xs
        rcases List.mem_cons.mp (ih x) with h1 | h1
        · rw [h1]
          exact List.mem_cons_self x (a :: xs)
        · exact List.mem_cons_of_mem x (List.mem_cons_of_mem a h1)

/-- The result of Python `max` has a key at least the key of every
element of the list. -/
theorem pymax_le {α : Type} (key : α → ℚ) :
    ∀ (xs : List α) (x f : α), f ∈ x :: xs → key f ≤ key (pymax key x xs) := by
  intro xs
  induction xs with
  | nil =>
      intro x f hf
      rcases List.mem_cons.mp hf with rfl | h1
      · exact le_refl _
      · exact absurd h1 (List.not_mem_nil f)
  | cons a xs ih =>
      intro x f hf
      show key f ≤ key ((a :: xs).foldl (fun best e => if key best < key e then e else best) x)
      rw [List.foldl_cons]
      by_cases h : key x < key a
      · rw [if_pos h]
        rcases List.mem_cons.mp hf with rfl | hf1
        · exact le_of_lt (lt_of_lt_of_le h (ih a a (List.mem_cons_self a xs)))
        · exact ih a f hf1
      · rw [if_neg h]
        rcases List.mem_cons.mp hf with rfl | hf1
        · exact ih f f (List.mem_cons_self f xs)
        · rcases List.mem_cons.mp hf1 with rfl | hf2
          · exact le_trans (le_of_not_lt h) (ih x x (List.mem_cons_self x xs))
          · exact ih x f (List.mem_cons_of_mem x hf2)

/-- C10: on a nonempty feature list, `get_maximum` returns the magnitude
and location of a feature present in the data whose magnitude is at
least the magnitude of every feature in the data. -/
theorem get_maximum_spec (data : Data) (hne : data.features ≠ []) :
    ∃ e, e ∈ data.features ∧
      get_maximum data = some (get_magnitude e, get_location e) ∧
      ∀ f, f ∈ data.features → get_magnitude f ≤ get_magnitude e := by
  obtain ⟨feats⟩ := data
  cases feats with
  | nil => exact absurd rfl hne
  | cons x xs =>
      refine ⟨pymax get_magnitude x xs, pymax_mem get_magnitude xs x, rfl, ?_⟩
      intro f hf
      exact pymax_le get_magnitude xs x f hf

/-- C10, witness: the strongest-earthquake theorem applied to a concrete
two-record set. -/
theorem get_maximum_spec_witness :
    (Data.mk [Feature.mk 0 3 (1, 2, 3), Feature.mk 1000 5 (4, 5, 6)]).features ≠ [] ∧
    ∃ e, e ∈ (Data.mk [Feature.mk 0 3 (1, 2, 3), Feature.mk 1000 5 (4, 5, 6)]).features ∧
      get_maximum (Data.mk [Feature.mk 0 3 (1, 2, 3), Feature.mk 1000 5 (4, 5, 6)])
        = some (get_magnitude e, get_location e) ∧
      ∀ f, f ∈ (Data.mk [Feature.mk 0 3 (1, 2, 3), Feature.mk 1000 5 (4, 5, 6)]).features →
        get_magnitude f ≤ get_magnitude e :=
  ⟨by decide,
    get_maximum_spec (Data.mk [Feature.mk 0 3 (1, 2, 3), Feature.mk 1000 5 (4, 5, 6)])
      (by decide)⟩
